import Mathlib

/-!
Verification of the xnet networking core: a shallow embedding of the
WebSocket frame codec (`frame.go`), the asynchronous WebSocket connection
(`ws/async_conn.go`), the TCP connection callbacks (`aio/tcp_conn.go`),
the loop's provided-buffer accounting and `Dial` (`aio/loop.go`), and the
permessage-deflate side-car wrappers.

Bytes are modelled as `Nat` values below 256; byte slices as `List Nat`.
Go bit operations on bytes are rendered arithmetically:
`x & 0x0f = x % 16`, `x & 0xf0 = x / 16 * 16` (for `x < 256`),
a test `x & 2^k ≠ 0` is `x / 2^k % 2 = 1`, and `x &^ 0x80 = x % 128`.
-/

namespace ws

/-- Protocol errors of `frame.go` (`ErrorReservedOpcode`, ...). -/
inductive Err
  | reservedOpcode
  | tooBigPayloadForControlFrame
  | invalidCloseCode
  | fragmentedControlFrame
  | invalidUtf8Payload
  | reservedRsv
  | deflateNotSupported
  | invalidFragmentation
  deriving DecidableEq, Repr

/-- OpCode is a byte (`type OpCode byte`). -/
abbrev OpCode := Nat

def Continuation : OpCode := 0

def Text : OpCode := 1

def Binary : OpCode := 2

def Close : OpCode := 8

def Ping : OpCode := 9

def Pong : OpCode := 0xa

def NoneOp : OpCode := 0xff

/-- Fragment kind (`type Fragment byte`; constants `fragSingle ...`). -/
inductive Fragment
  | fragSingle
  | fragFirst
  | fragMiddle
  | fragLast
  deriving DecidableEq, Repr

/-- Source `Fragment.isValidContinuation` (frame.go:66). -/
def Fragment.isValidContinuation (curr prev : Fragment) : Bool :=
  match prev with
  | .fragSingle | .fragLast => curr == .fragSingle || curr == .fragFirst
  | .fragFirst | .fragMiddle => curr == .fragMiddle || curr == .fragLast

/-- Source `OpCode.verify` (frame.go:76): `o <= Binary || (o >= Close && o <= Pong)`. -/
def OpCode.verify (o : OpCode) : Option Err :=
  if o ≤ Binary || (Close ≤ o && o ≤ Pong) then none
  else some .reservedOpcode

def defaultCloseCode : Nat := 1000

/-- Source `Frame` struct (frame.go:95). -/
structure Frame where
  payload : List Nat
  opcode : OpCode
  flags : Nat
  fin : Bool
  deflated : Bool
  deriving DecidableEq, Repr

/-- Source `Frame.rsv1`: `flags & rsv1Mask != 0` with `rsv1Mask = 0x40`. -/
def Frame.rsv1 (f : Frame) : Bool := f.flags / 64 % 2 == 1

/-- Source `Frame.rsv2`: `flags & rsv2Mask != 0` with `rsv2Mask = 0x20`. -/
def Frame.rsv2 (f : Frame) : Bool := f.flags / 32 % 2 == 1

/-- Source `Frame.rsv3`: `flags & rsv3Mask != 0` with `rsv3Mask = 0x10`. -/
def Frame.rsv3 (f : Frame) : Bool := f.flags / 16 % 2 == 1

/-- Source `Frame.fragment` (frame.go:115). -/
def Frame.fragment (f : Frame) : Fragment :=
  if f.fin then
    if f.opcode == Continuation then .fragLast
    else .fragSingle
  else
    if f.opcode == Continuation then .fragMiddle
    else .fragFirst

/-- Source `Frame.first` (frame.go:129): `opcode != Continuation`. -/
def Frame.first (f : Frame) : Bool := f.opcode != Continuation

/-- Source `Frame.isControl` (frame.go:219). -/
def Frame.isControl (f : Frame) : Bool :=
  f.opcode == Close || f.opcode == Ping || f.opcode == Pong

/-- Source `Frame.verifyContinuation` (frame.go:133). -/
def Frame.verifyContinuation (f : Frame) (prev : Fragment) : Option Err :=
  if f.isControl then none
  else if !(f.fragment.isValidContinuation prev) then some .invalidFragmentation
  else none

/-- Source `Frame.closeCode` (frame.go:143): big-endian first two payload bytes;
`0` for a non-Close frame or a one-byte payload, `1000` for an empty payload. -/
def Frame.closeCode (f : Frame) : Nat :=
  if f.opcode != Close then 0
  else if f.payload.length == 1 then 0
  else if f.payload.length == 0 then defaultCloseCode
  else 256 * f.payload.getD 0 0 + f.payload.getD 1 0

/-- Source `Frame.closePayload` (frame.go:156): bytes after the two code bytes. -/
def Frame.closePayload (f : Frame) : List Nat :=
  if f.payload.length > 2 then f.payload.drop 2 else []

/-- Go `unicode/utf8` second-byte acceptance range, per first byte
(`utf8.acceptRanges`): E0 narrows to A0..BF, ED to 80..9F (surrogates),
F0 to 90..BF, F4 to 80..8F; every other leading byte accepts 80..BF. -/
def utf8Accept1 (b b1 : Nat) : Bool :=
  if b == 0xe0 then 0xa0 ≤ b1 && b1 ≤ 0xbf
  else if b == 0xed then 0x80 ≤ b1 && b1 ≤ 0x9f
  else if b == 0xf0 then 0x90 ≤ b1 && b1 ≤ 0xbf
  else if b == 0xf4 then 0x80 ≤ b1 && b1 ≤ 0x8f
  else 0x80 ≤ b1 && b1 ≤ 0xbf

/-- Go `utf8.Valid`: shortest-form UTF-8, surrogates and values above
U+10FFFF rejected (leading bytes C0, C1 and F5..FF invalid). -/
def utf8Valid : List Nat → Bool
  | [] => true
  | b :: rest =>
    if b < 0x80 then utf8Valid rest
    else if 0xc2 ≤ b && b ≤ 0xdf then
      match rest with
      | b1 :: r => (0x80 ≤ b1 && b1 ≤ 0xbf) && utf8Valid r
      | [] => false
    else if 0xe0 ≤ b && b ≤ 0xef then
      match rest with
      | b1 :: b2 :: r => utf8Accept1 b b1 && (0x80 ≤ b2 && b2 ≤ 0xbf) && utf8Valid r
      | _ => false
    else if 0xf0 ≤ b && b ≤ 0xf4 then
      match rest with
      | b1 :: b2 :: b3 :: r =>
        utf8Accept1 b b1 && (0x80 ≤ b2 && b2 ≤ 0xbf) && (0x80 ≤ b3 && b3 ≤ 0xbf)
          && utf8Valid r
      | _ => false
    else false

/-- Source `Frame.verifyCloseCode` (frame.go:189). -/
def Frame.verifyCloseCode (f : Frame) : Option Err :=
  let cc := f.closeCode
  if (cc ≥ 1000 && cc ≤ 1003) || (cc ≥ 1007 && cc ≤ 1011) || (cc ≥ 3000 && cc ≤ 4999) then
    none
  else some .invalidCloseCode

/-- Source `Frame.verifyClose` (frame.go:182). -/
def Frame.verifyClose (f : Frame) : Option Err :=
  if !utf8Valid f.closePayload then some .invalidUtf8Payload
  else f.verifyCloseCode

/-- Source `Frame.verifyControl` (frame.go:199). -/
def Frame.verifyControl (f : Frame) : Option Err :=
  if f.payload.length > 125 then some .tooBigPayloadForControlFrame
  else if !f.fin then some .fragmentedControlFrame
  else none

/-- Source `Frame.verify` (frame.go:163). -/
def Frame.verify (f : Frame) : Option Err :=
  if f.rsv2 || f.rsv3 then some .reservedRsv
  else
    match f.opcode.verify with
    | some e => some e
    | none =>
      if !f.isControl then none
      else
        match f.verifyControl with
        | some e => some e
        | none =>
          if f.opcode == Close then f.verifyClose
          else none

/-- Source `Frame.verifyRsvBits` (frame.go:209). -/
def Frame.verifyRsvBits (f : Frame) (deflateSupported : Bool) : Option Err :=
  if f.rsv1 && !deflateSupported then some .deflateNotSupported
  else if f.rsv2 || f.rsv3 then some .reservedRsv
  else none

/-- Reader errors of the non-blocking byte reader: a clean `io.EOF` at a
frame boundary, or `ErrReadMore{Bytes}` (seb/event.go:287) when more bytes
are needed mid-frame. -/
inductive RdErr
  | eof
  | readMore (n : Nat)
  deriving DecidableEq, Repr

/-- Modelled from the spec: the `bufferBytesReader` used by
`AsyncConn.readFrames` is not under src/ (only its uses are). The spec
describes it as a cursor over a finite byte slice that returns EOF at a
clean frame boundary and `NeedMore(bytes)` mid-frame, with `pending()`
returning the bytes after the last completed frame; `seb.BufferReader`
(seb/event.go:249) realizes the same contract with a `head` cursor and a
`tail` frame boundary, and `FrameDone` moves `tail` to `head`. -/
structure BufferReader where
  buf : List Nat
  head : Nat
  tail : Nat
  deriving DecidableEq, Repr

/-- Modelled from the spec: `ReadByte` per `seb.BufferReader.ReadByte`
(seb/event.go:255). -/
def BufferReader.readByte (r : BufferReader) : Except RdErr (Nat × BufferReader) :=
  if r.head < r.buf.length then
    .ok (r.buf.getD r.head 0, { r with head := r.head + 1 })
  else if r.head == r.tail then .error .eof
  else .error (.readMore 1)

/-- Modelled from the spec: `Read(size)` per `seb.BufferReader.Read`
(seb/event.go:267). -/
def BufferReader.readN (r : BufferReader) (size : Nat) : Except RdErr (List Nat × BufferReader) :=
  if r.head + size ≤ r.buf.length then
    .ok ((r.buf.drop r.head).take size, { r with head := r.head + size })
  else if r.head == r.tail then .error .eof
  else .error (.readMore (r.head + size - r.buf.length))

/-- Modelled from the spec: `FrameDone` marks the frame boundary. -/
def BufferReader.frameDone (r : BufferReader) : BufferReader :=
  { r with tail := r.head }

/-- Modelled from the spec: `pending()` returns the unconsumed bytes after
the last completed frame (`buf[tail:]`, seb/event.go:279). -/
def BufferReader.pendingBytes (r : BufferReader) : List Nat :=
  r.buf.drop r.tail

/-- Source `maskUnmask` (frame.go:311): `buf[i] = c ^ mask[i%4]`. -/
def maskUnmask (mask buf : List Nat) : List Nat :=
  buf.mapIdx fun i c => Nat.xor c (mask.getD (i % 4) 0)

/-- Result of one `newFrame` call on the non-blocking reader: a parsed
frame together with the advanced reader, a clean EOF, a need-more-bytes
signal (with the reader at the failure point), or a verification error. -/
inductive FrameResult
  | frame (f : Frame) (r : BufferReader)
  | eof
  | readMore (n : Nat) (r : BufferReader)
  | verr (e : Err)
  deriving DecidableEq, Repr

/-- Source `newFrame` (frame.go:237) over the non-blocking byte reader:
two header bytes, optional 16/64-bit length extension, optional mask,
payload, unmask, then `Frame.verify` and `FrameDone`.
`flags = first & ^opcodeMask`, `opcode = first & opcodeMask`,
`masked = second & maskMask != 0`, `payloadLen = second &^ maskMask`. -/
def newFrame (r0 : BufferReader) : FrameResult :=
  match r0.readByte with
  | .error .eof => .eof
  | .error (.readMore n) => .readMore n r0
  | .ok (first, r1) =>
    match r1.readByte with
    | .error .eof => .eof
    | .error (.readMore n) => .readMore n r1
    | .ok (second, r2) =>
      let flags := first / 16 * 16
      let opcode : OpCode := first % 16
      let masked := second / 128 % 2 == 1
      let payloadLen0 := second % 128
      let lenStep : Except RdErr (Nat × BufferReader) :=
        if payloadLen0 == 126 then
          match r2.readN 2 with
          | .error e => .error e
          | .ok (b, r3) => .ok (256 * b.getD 0 0 + b.getD 1 0, r3)
        else if payloadLen0 == 127 then
          match r2.readN 8 with
          | .error e => .error e
          | .ok (b, r3) =>
            .ok (b.foldl (fun acc d => acc * 256 + d) 0, r3)
        else .ok (payloadLen0, r2)
      match lenStep with
      | .error .eof => .eof
      | .error (.readMore n) => .readMore n r2
      | .ok (payloadLen, r3) =>
        let maskStep : Except RdErr (List Nat × BufferReader) :=
          if masked then r3.readN 4 else .ok ([], r3)
        match maskStep with
        | .error .eof => .eof
        | .error (.readMore n) => .readMore n r3
        | .ok (mask, r4) =>
          let payloadStep : Except RdErr (List Nat × BufferReader) :=
            if payloadLen > 0 then
              match r4.readN payloadLen with
              | .error e => .error e
              | .ok (p, r5) => .ok (if masked then maskUnmask mask p else p, r5)
            else .ok ([], r4)
          match payloadStep with
          | .error .eof => .eof
          | .error (.readMore n) => .readMore n r4
          | .ok (payload, r5) =>
            let frame : Frame :=
              { payload := payload
                opcode := opcode
                flags := flags
                fin := flags / 128 % 2 == 1
                deflated := flags / 64 % 2 == 1 }
            match frame.verify with
            | some e => .verr e
            | none => .frame frame r5.frameDone

/-- Source `Frame.payloadLenBytes` (frame.go:420). -/
def Frame.payloadLenBytes (f : Frame) : Nat :=
  if f.payload.length < 126 then 0
  else if f.payload.length < 65536 then 2
  else 8

/-- Source `Frame.header` (frame.go:395): first byte
`opcode | (fin ? 0x80 : 0) | (deflated ? 0x40 : 0)`, second byte the raw
length or the 126/127 discriminator, then the big-endian extension. -/
def Frame.header (f : Frame) : List Nat :=
  let b0 := f.opcode + (if f.fin then 128 else 0) + (if f.deflated then 64 else 0)
  let len := f.payload.length
  match f.payloadLenBytes with
  | 2 => [b0, 126, len / 256 % 256, len % 256]
  | 8 =>
    [b0, 127,
      len / 2 ^ 56 % 256, len / 2 ^ 48 % 256, len / 2 ^ 40 % 256, len / 2 ^ 32 % 256,
      len / 2 ^ 24 % 256, len / 2 ^ 16 % 256, len / 2 ^ 8 % 256, len % 256]
  | _ => [b0, len]

/-- Source `Frame.encode` (frame.go:431): the two-element buffer list. -/
def Frame.encode (f : Frame) : List (List Nat) :=
  [f.header, f.payload]

/-- Source `verifyFrame` (unnamed ws file, sync driver; used verbatim by
`AsyncConn.readFrames`): continuation check then RSV-bit negotiation. -/
def verifyFrame (frame : Frame) (prevFragment : Fragment) (permessageDeflate : Bool) :
    Option Err :=
  match frame.verifyContinuation prevFragment with
  | some e => some e
  | none => frame.verifyRsvBits permessageDeflate

/-- Source `verifyMessage`: a Text message must carry valid UTF-8. -/
def verifyMessage (opcode : OpCode) (payload : List Nat) : Option Err :=
  if opcode == Text && !utf8Valid payload then some .invalidUtf8Payload
  else none

/-- Source `frameState` (ws/async_conn.go:56): partial-frame parsing state. -/
structure FrameState where
  pending : List Nat
  recvMore : Nat
  deriving DecidableEq, Repr

/-- Source `frameState.received` (ws/async_conn.go:61): returns the updated
state and the buffer to process (`none` when everything was stashed). -/
def FrameState.received (fs : FrameState) (buf : List Nat) : FrameState × Option (List Nat) :=
  if buf.length < fs.recvMore then
    ({ pending := fs.pending ++ buf, recvMore := fs.recvMore - buf.length }, none)
  else if fs.pending.length > 0 then
    ({ fs with recvMore := 0 }, some (fs.pending ++ buf))
  else (fs, some buf)

/-- Source `frameState.unprocessed` (ws/async_conn.go:74): append the
codec's unread tail to `pending` and record `recvMore`. -/
def FrameState.unprocessed (fs : FrameState) (buf : List Nat) (recvMore : Nat) : FrameState :=
  { pending := fs.pending ++ buf, recvMore := recvMore }

/-- Source `frameState.reset` (ws/async_conn.go:79). -/
def FrameState.reset : FrameState := { pending := [], recvMore := 0 }

/-- Source `messageState` (ws/async_conn.go:32): fragmented-message state. -/
structure MessageState where
  payload : List Nat
  opcode : OpCode
  prevFrameFragment : Fragment
  compressed : Bool
  deriving DecidableEq, Repr

/-- Go zero value of `messageState` (a fresh `AsyncConn`): zero opcode is
`Continuation`, zero fragment is `fragSingle`. -/
def MessageState.zero : MessageState :=
  { payload := [], opcode := Continuation, prevFrameFragment := .fragSingle, compressed := false }

/-- Source `messageState.reset` (ws/async_conn.go:39). -/
def MessageState.reset : MessageState :=
  { payload := [], opcode := NoneOp, prevFrameFragment := .fragSingle, compressed := false }

/-- Source `messageState.add` (ws/async_conn.go:46). -/
def MessageState.add (ms : MessageState) (frame : Frame) : MessageState :=
  let ms :=
    if frame.first then { ms with compressed := frame.rsv1, opcode := frame.opcode }
    else ms
  { ms with
    payload := ms.payload ++ frame.payload
    prevFrameFragment := frame.fragment }

/-- Observable actions of the async connection: a message handed to the
upstream handler (`up.Received`), a control echo handed to the TCP layer
(`c.send`, recorded as opcode and payload before frame encoding), and a
`tc.Close` on error. -/
inductive AEvent
  | msg (payload : List Nat)
  | ctlSend (opcode : OpCode) (payload : List Nat)
  | tcClose
  deriving DecidableEq, Repr

/-- Errors that abort `AsyncConn.readFrames`: a codec error, a
`Decompress` failure, or fuel exhaustion (never reached on the inputs
considered; the Go loop consumes at least two bytes per iteration). -/
inductive AErr
  | codec (e : Err)
  | decompressFailed
  | outOfFuel
  deriving DecidableEq, Repr

/-- Source `AsyncConn.handleControl` (ws/async_conn.go:139): Ping is
answered with a Pong carrying a copy of the payload, Pong is ignored,
Close is echoed. -/
def handleControl (frame : Frame) : List AEvent :=
  if frame.opcode == Ping then [.ctlSend Pong frame.payload]
  else if frame.opcode == Pong then []
  else [.ctlSend Close frame.payload]

/-- Source `AsyncConn.readFrames` (ws/async_conn.go:93), parameterized by
the external `Decompress` function. Returns the final frame and message
states, the emitted events in order, and the error that aborted the loop,
if any. Fuel bounds the iteration count; each parsed frame consumes at
least two bytes of the reader, so `buf.length + 1` suffices. -/
def readFramesLoop (decompress : List Nat → Except Unit (List Nat))
    (permessageDeflate : Bool) :
    Nat → BufferReader → FrameState → MessageState →
      FrameState × MessageState × List AEvent × Option AErr
  | 0, _, fs, ms => (fs, ms, [], some .outOfFuel)
  | fuel + 1, rdr, fs, ms =>
    match newFrame rdr with
    | .eof => (fs, ms, [], none)
    | .readMore n r => (fs.unprocessed r.pendingBytes n, ms, [], none)
    | .verr e => (fs, ms, [], some (.codec e))
    | .frame frame r =>
      let fs := FrameState.reset
      if frame.isControl then
        let evs := handleControl frame
        let (fs', ms', evs', res) := readFramesLoop decompress permessageDeflate fuel r fs ms
        (fs', ms', evs ++ evs', res)
      else
        match verifyFrame frame ms.prevFrameFragment permessageDeflate with
        | some e => (fs, ms, [], some (.codec e))
        | none =>
          let ms := ms.add frame
          if frame.fin then
            match if ms.compressed then decompress ms.payload else .ok ms.payload with
            | .error _ => (fs, ms, [], some .decompressFailed)
            | .ok payload =>
              match verifyMessage ms.opcode payload with
              | some e => (fs, ms, [], some (.codec e))
              | none =>
                let ms := MessageState.reset
                let (fs', ms', evs', res) :=
                  readFramesLoop decompress permessageDeflate fuel r fs ms
                (fs', ms', .msg payload :: evs', res)
          else
            let (fs', ms', evs', res) := readFramesLoop decompress permessageDeflate fuel r fs ms
            (fs', ms', evs', res)

/-- State of an `AsyncConn` relevant to `Received`: the partial-frame
parsing state and the fragmented-message state. -/
structure AsyncConnState where
  fs : FrameState
  ms : MessageState
  deriving DecidableEq, Repr

/-- Source `AsyncConn.Received` (ws/async_conn.go:84): stash or parse the
chunk; on a parse error close the TCP connection (`tc.Close`, recorded as
a final `tcClose` event). -/
def asyncReceived (decompress : List Nat → Except Unit (List Nat))
    (permessageDeflate : Bool) (st : AsyncConnState) (buf : List Nat) :
    AsyncConnState × List AEvent :=
  match st.fs.received buf with
  | (fs', none) => ({ st with fs := fs' }, [])
  | (fs', some b) =>
    let rdr : BufferReader := { buf := b, head := 0, tail := 0 }
    let (fs'', ms', evs, res) :=
      readFramesLoop decompress permessageDeflate (b.length + 1) rdr fs' st.ms
    match res with
    | none => (⟨fs'', ms'⟩, evs)
    | some _ => (⟨fs'', ms'⟩, evs ++ [.tcClose])

/-- Fresh `AsyncConn` state (Go zero value). -/
def AsyncConnState.zero : AsyncConnState :=
  ⟨{ pending := [], recvMore := 0 }, MessageState.zero⟩

/-- Feed a list of chunks through `asyncReceived`, collecting all events. -/
def asyncFeed (decompress : List Nat → Except Unit (List Nat))
    (permessageDeflate : Bool) : AsyncConnState → List (List Nat) →
    AsyncConnState × List AEvent
  | st, [] => (st, [])
  | st, buf :: rest =>
    let (st', evs) := asyncReceived decompress permessageDeflate st buf
    let (st'', evs') := asyncFeed decompress permessageDeflate st' rest
    (st'', evs ++ evs')

/-- Frame-sequence validator: fold `Frame.verifyContinuation` over a list
of frames the way the drivers do, starting from a previous fragment;
control frames are checked (trivially passing) and do not advance the
fragment state; a non-control frame advances it to its own fragment kind
(`messageState.add`, ws/async_conn.go:53). Returns the final fragment
state or the first error. -/
def processFrames : Fragment → List Frame → Except Err Fragment
  | prev, [] => .ok prev
  | prev, f :: rest =>
    match f.verifyContinuation prev with
    | some e => .error e
    | none =>
      if f.isControl then processFrames prev rest
      else processFrames f.fragment rest

/-- List of all-Middle fragments (the `Middle*` part of a group). -/
inductive AllMiddles : List Fragment → Prop
  | nil : AllMiddles []
  | cons {ms : List Fragment} : AllMiddles ms → AllMiddles (.fragMiddle :: ms)

/-- The spec's language of complete non-control fragment sequences:
`(Single)*` interleaved with `(First, Middle*, Last)` groups. -/
inductive FragSeq : List Fragment → Prop
  | nil : FragSeq []
  | single {rest : List Fragment} : FragSeq rest → FragSeq (.fragSingle :: rest)
  | group {ms rest : List Fragment} :
      AllMiddles ms → FragSeq rest →
      FragSeq (.fragFirst :: ms ++ .fragLast :: rest)

/-- Fragment kinds of the non-control frames of a list, in order. -/
def nonControlFragments (frames : List Frame) : List Fragment :=
  (frames.filter fun f => !f.isControl).map Frame.fragment

/-- The fragmentation automaton on fragment kinds alone: step by
`isValidContinuation`, `none` on a rejected transition. `processFrames`
reduces to this on the non-control fragments. -/
def runFragments : Fragment → List Fragment → Option Fragment
  | prev, [] => some prev
  | prev, fr :: rest =>
    if fr.isValidContinuation prev then runFragments fr rest else none

/-- Boundary states of the fragmentation machine: between messages the
previous fragment is `Single` or `Last`. -/
def atBoundary (frag : Fragment) : Prop :=
  frag = .fragSingle ∨ frag = .fragLast

/-- Source `compressLastBlock` (compressor file): the four-byte empty-block
tail `00 00 FF FF` followed by the `01 00 00 FF FF` terminator. -/
def compressLastBlock : List Nat := [0x00, 0x00, 0xff, 0xff, 0x01, 0x00, 0x00, 0xff, 0xff]

/-- Source `Compressor.compress`, with the raw-deflate encoder (write +
flush, an external library) abstracted as `enc`: the flushed output with
its last four bytes dropped (`b[:len(b)-4]`). -/
def Compressor.compress (enc : List Nat → List Nat) (payload : List Nat) : List Nat :=
  let b := enc payload
  b.take (b.length - 4)

/-- Source `Decompressor.decompress`, with the inflater (`flate.NewReader`
+ `io.ReadAll`, an external library) abstracted as `inf`: the input with
`compressLastBlock` appended is handed to the inflater
(`bytes.NewReader(append(payload, compressLastBlock...))`). -/
def Decompressor.decompress (inf : List Nat → List Nat) (payload : List Nat) : List Nat :=
  inf (payload ++ compressLastBlock)

/-- Decompression as the spec's sentence reads, for comparison with the
source: the tail bytes prepended to the input. -/
def decompressSpecPrepended (inf : List Nat → List Nat) (payload : List Nat) : List Nat :=
  inf (compressLastBlock ++ payload)

end ws

namespace aio

/-- Go error values that reach `TcpConn.shutdown` and `Upstream.Closed`:
an errno, `io.EOF`, or the sentinel errors of `aio/tcp_conn.go`. -/
inductive IOErr
  | errno (n : Nat)
  | eof
  | listenerClose
  | upstreamClose
  deriving DecidableEq, Repr

/-- Source `TemporaryErrno` (aio errno file): Go `Errno.Temporary()`
(EINTR, EMFILE, ENFILE or a timeout: EAGAIN/EWOULDBLOCK, ETIMEDOUT)
extended with ETIME and ENOBUFS. Numeric values are the Linux ones:
EINTR=4, EAGAIN=EWOULDBLOCK=11, ENFILE=23, EMFILE=24, ETIME=62,
ENOBUFS=105, ETIMEDOUT=110. -/
def TemporaryErrno (errno : Nat) : Bool :=
  errno == 4 || errno == 24 || errno == 23 || errno == 11 || errno == 110
    || errno == 62 || errno == 105

def ENOTCONN : Nat := 107

def ECONNRESET : Nat := 104

/-- Operations and upstream callbacks observable from a `TcpConn`:
`loop.Prepare*` submissions, the parent's removal hook (`lsn.remove`),
and the `Upstream` interface calls. -/
inductive Event
  | prepareShutdown
  | prepareClose
  | prepareSend (off : Int)
  | prepareRecv
  | remove
  | closed (cause : IOErr)
  | sent
  | receivedBuf (id : Nat) (len : Nat)
  | releaseBuf (id : Nat)
  | shutdownCall (cause : IOErr)
  deriving DecidableEq, Repr

/-- Source `TcpConn.shutdown` entry (aio/tcp_conn.go:269-277): when a
cause is already latched the call is a no-op; otherwise it latches the
cause and posts a shutdown operation. The completion chain is modelled
separately. -/
def shutdownStep (latched : Option IOErr) (err : IOErr) : Option IOErr × List Event :=
  match latched with
  | some _ => (latched, [])
  | none => (some err, [.prepareShutdown])

/-- Fold a sequence of `shutdown(err)` calls (aio/tcp_conn.go:269). -/
def shutdownCalls : Option IOErr → List IOErr → Option IOErr × List Event
  | latched, [] => (latched, [])
  | latched, e :: rest =>
    let (latched', evs) := shutdownStep latched e
    let (latched'', evs') := shutdownCalls latched' rest
    (latched'', evs ++ evs')

/-- Source shutdown-completion callback (aio/tcp_conn.go:277-293): on any
shutdown error the removal hook and `Closed(latched)` run directly; only
on success (`errno == 0`) is a close posted. ENOTCONN merely suppresses
the debug log. -/
def shutdownComplete (latched : IOErr) (errno : Nat) : List Event :=
  if errno != 0 then [.remove, .closed latched]
  else [.prepareClose]

/-- Source close-completion callback (aio/tcp_conn.go:286-292): removal
hook and `Closed(latched)` regardless of the close result. -/
def closeComplete (latched : IOErr) (errno : Nat) : List Event :=
  let _ := errno
  [.remove, .closed latched]

/-- Full completion chain after a latched shutdown: the shutdown
completion, followed by the close completion when a close was posted. -/
def shutdownChain (latched : IOErr) (shutErrno closeErrno : Nat) : List Event :=
  let evs := shutdownComplete latched shutErrno
  if evs.contains .prepareClose then evs ++ closeComplete latched closeErrno
  else evs

/-- Whole shutdown lifecycle of a connection: a nonempty sequence of
`shutdown` calls, then the completion chain for the latched cause with
the given shutdown / close completion results. -/
def connLifecycle (calls : List IOErr) (shutErrno closeErrno : Nat) : List Event :=
  let (latched, evs) := shutdownCalls none calls
  match latched with
  | none => evs
  | some e => evs ++ shutdownChain e shutErrno closeErrno

/-- One send completion: the kernel result (negative encodes an errno)
and the errno handed to the callback. -/
structure Completion where
  res : Int
  errno : Nat
  deriving DecidableEq, Repr

/-- Source `TcpConn.Send` completion callback (aio/tcp_conn.go:166-185):
`nn += res`; an error shuts the connection down; once `nn >= len(data)`
the upstream `Sent` fires; otherwise the remaining suffix `data[nn:]` is
re-sent with the same callback. One completion is consumed per prepared
send; the fold stops at the terminal event. -/
def sendCallback (dataLen : Nat) : Int → List Completion → List Event
  | _, [] => []
  | nn, c :: rest =>
    let nn := nn + c.res
    if c.errno > 0 then [.shutdownCall (.errno c.errno)]
    else if nn ≥ (dataLen : Int) then [.sent]
    else .prepareSend nn :: sendCallback dataLen nn rest

/-- Source `TcpConn.Send` (aio/tcp_conn.go:166): prepares the initial send
of the whole buffer, then runs the completion callback. -/
def sendRun (dataLen : Nat) (comps : List Completion) : List Event :=
  .prepareSend 0 :: sendCallback dataLen 0 comps

/-- Completions that are all successful and keep the cumulative count
strictly below `dataLen` (the re-issue regime of `Send`). -/
def sendPartialRun (dataLen : Nat) : Int → List Completion → Bool
  | _, [] => true
  | nn, c :: rest =>
    c.errno == 0 && decide (0 ≤ c.res) && decide (nn + c.res < (dataLen : Int))
      && sendPartialRun dataLen (nn + c.res) rest

/-- Cumulative byte counts after each completion (the `nn` values at which
`Send` re-issues `data[nn:]`). -/
def sendOffsets : Int → List Completion → List Int
  | _, [] => []
  | nn, c :: rest => (nn + c.res) :: sendOffsets (nn + c.res) rest

/-- Total byte count of a completion list. -/
def sumRes : List Completion → Int
  | [] => 0
  | c :: rest => c.res + sumRes rest

/-- Terminal events of a `Send`: the upstream `Sent` or the internal
shutdown that leads to `Closed`. -/
def isTerminalEvent : Event → Bool
  | .sent => true
  | .shutdownCall _ => true
  | _ => false

/-- Test for the upstream `Closed` callback. -/
def isClosedEvent : Event → Bool
  | .closed _ => true
  | _ => false

/-- Test for a buffer release back to the provided-buffer ring. -/
def isReleaseEvent : Event → Bool
  | .releaseBuf _ => true
  | _ => false

def CQEFBuffer : Nat := 1

def CQEFMore : Nat := 2

def CQEBufferShift : Nat := 16

/-- Source `isMultiShot` (aio/loop.go:442): `flags & CQEFMore > 0`. -/
def isMultiShot (flags : Nat) : Bool := flags / 2 % 2 == 1

/-- Source `providedBuffers.get` (aio/loop.go:383): panics (`none`) when
the completion lacks the `CQEFBuffer` flag; otherwise the buffer id is
`uint16(flags >> CQEBufferShift)` and the buffer is `res` bytes long. -/
def buffersGet (res : Int) (flags : Nat) : Option (Nat × Nat) :=
  if flags % 2 == 1 then some (flags / 2 ^ 16 % 2 ^ 16, res.toNat)
  else none

/-- Source `TcpConn.recvLoop` completion callback (aio/tcp_conn.go:237):
temporary errors re-arm the receive; other errors and EOF shut down; a
successful completion takes the provided buffer (panicking without the
buffer flag, modelled as `none`), hands it to `Received`, releases it,
and re-arms only when the multishot flag is gone. -/
def recvStep (res : Int) (flags : Nat) (errno : Nat) : Option (List Event) :=
  if errno > 0 then
    if TemporaryErrno errno then some [.prepareRecv]
    else some [.shutdownCall (.errno errno)]
  else if res == 0 then some [.shutdownCall .eof]
  else
    match buffersGet res flags with
    | none => none
    | some (id, len) =>
      some ([.receivedBuf id len, .releaseBuf id]
        ++ if !isMultiShot flags then [.prepareRecv] else [])

/-- Observable actions of `Loop.Dial`'s connect-completion callback:
invocations of the `dialed` callback (with the fd passed, whether a
connection object was passed, and the error) and registrations into the
loop's `connections` map. -/
inductive DialEvent
  | dialed (fd : Nat) (connPassed : Bool) (err : Option Nat)
  | registerConn (fd : Nat)
  deriving DecidableEq, Repr

/-- Source `Loop.Dial` connect callback (aio/loop.go:458-466). The error
branch calls `dialed(0, nil, err)` but does not return, so execution
falls through to the registration and the second `dialed` call. -/
def dialConnectCallback (fd : Nat) (err : Option Nat) : List DialEvent :=
  (match err with
    | some e => [.dialed 0 false (some e)]
    | none => [])
  ++ [.registerConn fd, .dialed fd true none]

end aio

/-! ## Theorems -/

/-- C10: the claim says that when the connect operation of `Loop.Dial`
completes with an error, `dialed` is invoked exactly once, with a nil
connection and that error, and no connection is registered. The code's
error branch lacks a `return`, so it invokes `dialed(0, nil, err)` and
then falls through: it registers the connection and invokes
`dialed(fd, conn, nil)` a second time. Evaluated here at fd 7 and
errno 111 (ECONNREFUSED). -/
theorem dial_error_completion_double_callback :
    aio.dialConnectCallback 7 (some 111) =
      [.dialed 0 false (some 111), .registerConn 7, .dialed 7 true none] ∧
    (aio.dialConnectCallback 7 (some 111)).countP
      (fun e => match e with | .dialed _ _ _ => true | _ => false) = 2 ∧
    .registerConn 7 ∈ aio.dialConnectCallback 7 (some 111) := by
  refine ⟨rfl, rfl, ?_⟩
  simp [aio.dialConnectCallback]

/-- C7 counterexample: the claim says ENOTCONN on shutdown completion is
benign and a close is still posted, with the removal hook and `Closed`
running only at close completion. In the code any nonzero errno —
ENOTCONN (107) included — skips the close and runs the removal hook and
`Closed(latched)` directly in the shutdown completion. -/
theorem shutdown_enotconn_skips_close :
    aio.shutdownComplete .eof aio.ENOTCONN = [.remove, .closed .eof] ∧
    .prepareClose ∉ aio.shutdownComplete .eof aio.ENOTCONN := by
  refine ⟨rfl, ?_⟩
  decide

/-- C7 amended: on shutdown completion with errno 0 a close is posted
(and nothing else happens); on any shutdown error — ENOTCONN included,
its benign treatment affects only logging — the close is skipped and the
parent's removal hook and `Closed(latched)` run directly; on close
completion the removal hook and `Closed(latched)` run regardless of the
close result. -/
theorem shutdown_close_chain (latched : aio.IOErr) (se ce : Nat) :
    (se = 0 → aio.shutdownComplete latched se = [.prepareClose]) ∧
    (se ≠ 0 → aio.shutdownComplete latched se = [.remove, .closed latched]) ∧
    aio.closeComplete latched ce = [.remove, .closed latched] := by
  refine ⟨fun h => ?_, fun h => ?_, rfl⟩
  · simp [aio.shutdownComplete, h]
  · simp [aio.shutdownComplete, h]

/-- Witness for `shutdown_close_chain` at latched = EOF, errno 0. -/
theorem shutdown_close_chain_witness :
    aio.shutdownComplete .eof 0 = [.prepareClose] :=
  (shutdown_close_chain .eof 0 0).1 rfl

/-- C8 counterexample: the claim says `decompress` prepends the tail
block to its input before inflating; the code appends it
(`append(payload, compressLastBlock...)`). At the identity inflater and
input `[1]` the two differ. -/
theorem decompress_appends_not_prepends :
    ws.Decompressor.decompress id [1] ≠ ws.decompressSpecPrepended id [1] := by
  decide

/-- C8 amended: `compress` returns the encoder's flushed output with
exactly its four tail bytes `00 00 FF FF` dropped (whenever the flushed
output ends in that empty-block tail), and `decompress` appends — not
prepends — the four-byte tail plus the `01 00 00 FF FF` terminator to its
input before handing it to the inflater. -/
theorem compress_decompress_tail_convention (enc inf : List Nat → List Nat)
    (payload : List Nat)
    (h : ∃ front, enc payload = front ++ [0x00, 0x00, 0xff, 0xff]) :
    ws.Compressor.compress enc payload ++ [0x00, 0x00, 0xff, 0xff] = enc payload ∧
    ws.Decompressor.decompress inf payload =
      inf (payload ++ ([0x00, 0x00, 0xff, 0xff] ++ [0x01, 0x00, 0x00, 0xff, 0xff])) := by
  obtain ⟨front, hfront⟩ := h
  constructor
  · simp [ws.Compressor.compress, hfront, List.take_left]
  · simp [ws.Decompressor.decompress, ws.compressLastBlock]

/-- Witness for `compress_decompress_tail_convention` at a concrete
encoder and payload. -/
theorem compress_decompress_tail_convention_witness :
    ws.Compressor.compress (fun p => p ++ [0x00, 0x00, 0xff, 0xff]) [72]
        ++ [0x00, 0x00, 0xff, 0xff] = [72] ++ [0x00, 0x00, 0xff, 0xff] ∧
    ws.Decompressor.decompress id [72] =
      id ([72] ++ ([0x00, 0x00, 0xff, 0xff] ++ [0x01, 0x00, 0x00, 0xff, 0xff])) :=
  compress_decompress_tail_convention (fun p => p ++ [0x00, 0x00, 0xff, 0xff]) id [72]
    ⟨[72], rfl⟩

/-- C1: the claim says delivery is split-invariant — for every buffer and
split point, `Received(buf[0..k]); Received(buf[k..])` emits the same
messages and leaves the same pending/recvMore state as `Received(buf)`.
The code violates this: `frameState.received` hands `pending ++ buf` to
the parser without clearing `pending`, and when the parse makes no full
frame, `unprocessed` appends the whole combined tail to the still-intact
`pending`, duplicating it. At `buf = [0x81, 0x05]` (an unmasked Text
header announcing five payload bytes) and `k = 1`, the split delivery
leaves `pending = [0x81, 0x81, 0x05]` against `[0x81, 0x05]` for the
single call; feeding the five payload bytes `"Hello"` afterwards then
yields the corrupted message `[0x69]` instead of `"Hello"`. -/
theorem asyncconn_received_not_split_invariant :
    (ws.asyncFeed (fun p => .ok p) false ws.AsyncConnState.zero
        [[0x81], [0x05]]).1.fs.pending = [0x81, 0x81, 0x05] ∧
    (ws.asyncFeed (fun p => .ok p) false ws.AsyncConnState.zero
        [[0x81, 0x05]]).1.fs.pending = [0x81, 0x05] ∧
    (ws.asyncFeed (fun p => .ok p) false ws.AsyncConnState.zero
        [[0x81], [0x05]]).1 ≠
      (ws.asyncFeed (fun p => .ok p) false ws.AsyncConnState.zero
        [[0x81, 0x05]]).1 ∧
    (ws.asyncFeed (fun p => .ok p) false ws.AsyncConnState.zero
        [[0x81], [0x05]]).2 = [] ∧
    (ws.asyncFeed (fun p => .ok p) false ws.AsyncConnState.zero
        [[0x81, 0x05]]).2 = [] ∧
    (ws.asyncFeed (fun p => .ok p) false ws.AsyncConnState.zero
        [[0x81], [0x05], [0x48, 0x65, 0x6c, 0x6c, 0x6f]]).2 =
      [ws.AEvent.msg [0x69]] ∧
    (ws.asyncFeed (fun p => .ok p) false ws.AsyncConnState.zero
        [[0x81, 0x05], [0x48, 0x65, 0x6c, 0x6c, 0x6f]]).2 =
      [ws.AEvent.msg [0x48, 0x65, 0x6c, 0x6c, 0x6f]] := by
  refine ⟨rfl, rfl, ?_, rfl, rfl, rfl, rfl⟩
  decide

/-- Folding further `shutdown` calls over an already-latched connection
changes nothing and emits nothing. -/
theorem shutdownCalls_latched (e : aio.IOErr) (l : List aio.IOErr) :
    aio.shutdownCalls (some e) l = (some e, []) := by
  induction l with
  | nil => rfl
  | cons x rest ih => simp [aio.shutdownCalls, aio.shutdownStep, ih]

/-- C4: `shutdown(err)` with a non-nil cause is idempotent — the first
call latches the cause and posts the shutdown operation, every later call
is a no-op — and across the whole shutdown/close completion chain the
upstream `Closed` fires exactly once, with the first latched cause. -/
theorem tcp_shutdown_idempotent (e : aio.IOErr) (rest : List aio.IOErr)
    (se ce : Nat) :
    aio.shutdownCalls none (e :: rest) = (some e, [.prepareShutdown]) ∧
    (aio.connLifecycle (e :: rest) se ce).countP aio.isClosedEvent = 1 ∧
    .closed e ∈ aio.connLifecycle (e :: rest) se ce := by
  have hcalls : aio.shutdownCalls none (e :: rest) = (some e, [.prepareShutdown]) := by
    simp [aio.shutdownCalls, aio.shutdownStep, shutdownCalls_latched]
  refine ⟨hcalls, ?_, ?_⟩ <;>
    · simp only [aio.connLifecycle, hcalls]
      by_cases hse : se = 0 <;>
        simp [aio.shutdownChain, aio.shutdownComplete, aio.closeComplete,
          aio.isClosedEvent, hse]

/-- Witness for `tcp_shutdown_idempotent`: two shutdown calls (EOF then
ECONNRESET), clean shutdown and close completions. -/
theorem tcp_shutdown_idempotent_witness :
    aio.shutdownCalls none [aio.IOErr.eof, aio.IOErr.errno 104] =
      (some aio.IOErr.eof, [.prepareShutdown]) ∧
    (aio.connLifecycle [aio.IOErr.eof, aio.IOErr.errno 104] 0 0).countP
      aio.isClosedEvent = 1 ∧
    .closed aio.IOErr.eof ∈ aio.connLifecycle [aio.IOErr.eof, aio.IOErr.errno 104] 0 0 :=
  tcp_shutdown_idempotent aio.IOErr.eof [aio.IOErr.errno 104] 0 0

/-- C9: in the receive loop, a successful completion (`res > 0`, no
errno) must carry the provided-buffer flag — its absence is the
`missing buffer flag` panic, modelled as `none` — and with the flag
present the selected buffer is handed to `Received` and then released
exactly once, before any further receive is prepared on the fd. -/
theorem recv_buffer_discipline (res : Int) (flags : Nat) (hres : 0 < res) :
    (flags % 2 = 0 → aio.recvStep res flags 0 = none) ∧
    (flags % 2 = 1 →
      aio.recvStep res flags 0 =
        some ([.receivedBuf (flags / 2 ^ 16 % 2 ^ 16) res.toNat,
              .releaseBuf (flags / 2 ^ 16 % 2 ^ 16)]
          ++ if !aio.isMultiShot flags then [.prepareRecv] else []) ∧
      ∀ evs, aio.recvStep res flags 0 = some evs →
        evs.countP aio.isReleaseEvent = 1 ∧
        evs.take 2 = [.receivedBuf (flags / 2 ^ 16 % 2 ^ 16) res.toNat,
          .releaseBuf (flags / 2 ^ 16 % 2 ^ 16)]) := by
  have hres0 : ¬(res == 0) = true := by
    simp only [beq_iff_eq]
    omega
  constructor
  · intro h
    simp [aio.recvStep, aio.buffersGet, hres0, h]
  · intro h
    have hstep : aio.recvStep res flags 0 =
        some ([.receivedBuf (flags / 2 ^ 16 % 2 ^ 16) res.toNat,
              .releaseBuf (flags / 2 ^ 16 % 2 ^ 16)]
          ++ if !aio.isMultiShot flags then [.prepareRecv] else []) := by
      simp [aio.recvStep, aio.buffersGet, hres0, h]
    refine ⟨hstep, fun evs hevs => ?_⟩
    rw [hstep] at hevs
    obtain rfl := Option.some_injective _ hevs.symm
    by_cases hms : aio.isMultiShot flags <;>
      simp [aio.isReleaseEvent, hms, List.countP_cons]

/-- Witness for `recv_buffer_discipline`: a 5-byte completion carrying
buffer id 3 with the buffer flag and the multishot flag set. -/
theorem recv_buffer_discipline_witness :
    (3 * 2 ^ 16 + 3) % 2 = 1 ∧
    aio.recvStep 5 (3 * 2 ^ 16 + 3) 0 =
      some ([.receivedBuf ((3 * 2 ^ 16 + 3) / 2 ^ 16 % 2 ^ 16) (Int.toNat 5),
            .releaseBuf ((3 * 2 ^ 16 + 3) / 2 ^ 16 % 2 ^ 16)]
        ++ if !aio.isMultiShot (3 * 2 ^ 16 + 3) then [.prepareRecv] else []) :=
  ⟨by decide,
    ((recv_buffer_discipline 5 (3 * 2 ^ 16 + 3) (by decide)).2 (by decide)).1⟩

/-- C6: a Close frame passes close verification iff the payload bytes
after the first two are valid UTF-8 (otherwise `ErrInvalidUtf8Payload`)
and the close code — big-endian in the first two payload bytes, 1000 for
an empty payload, invalid for a one-byte payload — lies in
[1000,1003] ∪ [1007,1011] ∪ [3000,4999] (otherwise
`ErrInvalidCloseCode`). -/
theorem close_frame_verification (f : ws.Frame) (hop : f.opcode = ws.Close) :
    (f.verifyClose = none ↔
      ws.utf8Valid (f.payload.drop 2) = true ∧
        ((1000 ≤ f.closeCode ∧ f.closeCode ≤ 1003) ∨
         (1007 ≤ f.closeCode ∧ f.closeCode ≤ 1011) ∨
         (3000 ≤ f.closeCode ∧ f.closeCode ≤ 4999))) ∧
    (ws.utf8Valid (f.payload.drop 2) = false →
      f.verifyClose = some .invalidUtf8Payload) ∧
    (ws.utf8Valid (f.payload.drop 2) = true →
      ¬((1000 ≤ f.closeCode ∧ f.closeCode ≤ 1003) ∨
        (1007 ≤ f.closeCode ∧ f.closeCode ≤ 1011) ∨
        (3000 ≤ f.closeCode ∧ f.closeCode ≤ 4999)) →
      f.verifyClose = some .invalidCloseCode) ∧
    (f.payload = [] → f.closeCode = 1000) ∧
    (f.payload.length = 1 → f.verifyClose = some .invalidCloseCode) ∧
    (2 ≤ f.payload.length →
      f.closeCode = 256 * f.payload.getD 0 0 + f.payload.getD 1 0) := by
  have hcp : f.closePayload = f.payload.drop 2 := by
    by_cases h : f.payload.length > 2
    · simp [ws.Frame.closePayload, h]
    · have hd : f.payload.drop 2 = [] := by
        apply List.drop_eq_nil_of_le
        omega
      simp [ws.Frame.closePayload, h, hd]
  have hvc : f.verifyClose =
      if ws.utf8Valid (f.payload.drop 2) = true then
        (if (1000 ≤ f.closeCode ∧ f.closeCode ≤ 1003) ∨
            (1007 ≤ f.closeCode ∧ f.closeCode ≤ 1011) ∨
            (3000 ≤ f.closeCode ∧ f.closeCode ≤ 4999) then none
         else some .invalidCloseCode)
      else some .invalidUtf8Payload := by
    rw [ws.Frame.verifyClose, hcp, ws.Frame.verifyCloseCode]
    by_cases hu : ws.utf8Valid (f.payload.drop 2) = true
    · simp only [hu, Bool.not_true, if_true, Bool.false_eq_true, if_false]
      by_cases hr : (1000 ≤ f.closeCode ∧ f.closeCode ≤ 1003) ∨
          (1007 ≤ f.closeCode ∧ f.closeCode ≤ 1011) ∨
          (3000 ≤ f.closeCode ∧ f.closeCode ≤ 4999)
      · have : ((f.closeCode ≥ 1000 && f.closeCode ≤ 1003) ||
            (f.closeCode ≥ 1007 && f.closeCode ≤ 1011) ||
            (f.closeCode ≥ 3000 && f.closeCode ≤ 4999)) = true := by
          simp only [Bool.or_eq_true, Bool.and_eq_true, decide_eq_true_eq]
          omega
        simp [this, hr]
      · have : ((f.closeCode ≥ 1000 && f.closeCode ≤ 1003) ||
            (f.closeCode ≥ 1007 && f.closeCode ≤ 1011) ||
            (f.closeCode ≥ 3000 && f.closeCode ≤ 4999)) = false := by
          simp only [Bool.or_eq_false_iff, Bool.and_eq_false_iff]
          simp only [decide_eq_false_iff_not, not_le, Decidable.not_and_iff_or_not] at *
          omega
        simp [this, hr]
    · simp only [Bool.not_eq_true] at hu
      simp [hu]
  refine ⟨?_, ?_, ?_, ?_, ?_, ?_⟩
  · rw [hvc]
    by_cases hu : ws.utf8Valid (f.payload.drop 2) = true <;>
      by_cases hr : (1000 ≤ f.closeCode ∧ f.closeCode ≤ 1003) ∨
          (1007 ≤ f.closeCode ∧ f.closeCode ≤ 1011) ∨
          (3000 ≤ f.closeCode ∧ f.closeCode ≤ 4999) <;>
      simp [hu, hr]
  · intro hu
    rw [hvc]
    simp [hu]
  · intro hu hr
    rw [hvc]
    simp [hu, hr]
  · intro hp
    simp [ws.Frame.closeCode, hop, ws.Close, hp, ws.defaultCloseCode]
  · intro hlen
    have hc : f.closeCode = 0 := by
      simp [ws.Frame.closeCode, hop, ws.Close, hlen]
    have hd : f.payload.drop 2 = [] := by
      apply List.drop_eq_nil_of_le
      omega
    have hu : ws.utf8Valid [] = true := rfl
    rw [hvc, hd]
    simp [hu, hc]
  · intro hlen
    simp only [ws.Frame.closeCode, hop, ws.Close]
    have h1 : (f.payload.length == 1) = false := by
      simp only [beq_eq_false_iff_ne, ne_eq]
      omega
    have h0 : (f.payload.length == 0) = false := by
      simp only [beq_eq_false_iff_ne, ne_eq]
      omega
    simp [h1, h0]

/-- Witness for `close_frame_verification`: the Close frame with payload
`03 E9` (close code 1001) passes close verification. -/
theorem close_frame_verification_witness :
    ({ payload := [0x03, 0xe9], opcode := ws.Close, flags := 0x80, fin := true,
       deflated := false } : ws.Frame).verifyClose = none :=
  ((close_frame_verification
      { payload := [0x03, 0xe9], opcode := ws.Close, flags := 0x80, fin := true,
        deflated := false } rfl).1).2
    ⟨by decide, by decide⟩

/-- Splitting a send-completion run: over a prefix of successful partial
completions, the callback emits exactly the re-issue events for the
cumulative offsets and continues with the accumulated count. -/
theorem sendCallback_split (dataLen : Nat) (pre : List aio.Completion) :
    ∀ (nn : Int), aio.sendPartialRun dataLen nn pre = true →
    ∀ (tail : List aio.Completion),
      aio.sendCallback dataLen nn (pre ++ tail) =
        (aio.sendOffsets nn pre).map .prepareSend ++
          aio.sendCallback dataLen (nn + aio.sumRes pre) tail := by
  induction pre with
  | nil =>
    intro nn _ tail
    simp [aio.sendOffsets, aio.sumRes]
  | cons c pre' ih =>
    intro nn h tail
    simp only [aio.sendPartialRun, Bool.and_eq_true, decide_eq_true_eq,
      beq_iff_eq] at h
    obtain ⟨⟨⟨he, hr⟩, hlt⟩, hrest⟩ := h
    have h1 : ¬(0 < c.errno) := by omega
    have h2 : ¬(nn + c.res ≥ (dataLen : Int)) := by omega
    simp only [List.cons_append, aio.sendCallback, if_neg h1, if_neg h2,
      aio.sendOffsets, aio.sumRes, List.map_cons]
    simp only [List.append_eq]
    rw [ih (nn + c.res) hrest tail]
    have h3 : nn + (c.res + aio.sumRes pre') = nn + c.res + aio.sumRes pre' := by ring
    rw [h3]

/-- A send-completion run contains at most one terminal event (the
callback returns at the first `Sent` or shutdown). -/
theorem sendCallback_terminal_le_one (dataLen : Nat) :
    ∀ (comps : List aio.Completion) (nn : Int),
      (aio.sendCallback dataLen nn comps).countP aio.isTerminalEvent ≤ 1 := by
  intro comps
  induction comps with
  | nil => intro nn; simp [aio.sendCallback]
  | cons c rest ih =>
    intro nn
    simp only [aio.sendCallback]
    by_cases he : 0 < c.errno
    · rw [if_pos he]
      simp [aio.isTerminalEvent]
    · rw [if_neg he]
      by_cases hge : nn + c.res ≥ (dataLen : Int)
      · rw [if_pos hge]
        simp [aio.isTerminalEvent]
      · rw [if_neg hge]
        rw [List.countP_cons_of_neg]
        · exact ih (nn + c.res)
        · simp [aio.isTerminalEvent]

/-- C5: for `Send(data)` — after a successful partial completion the send
is re-issued for exactly the unsent suffix `data[nn:]` (the re-issue
offsets are the cumulative byte counts); when the completions are all
successful, `Sent` fires exactly once, at the first completion where the
cumulative count reaches `len(data)`; a completion carrying an error
shuts the connection down with that error and `Sent` does not fire — so
at most one terminal event ever occurs, and exactly one occurs in each of
the two regimes. -/
theorem tcp_send_discipline (dataLen : Nat) (pre : List aio.Completion)
    (c : aio.Completion) (rest : List aio.Completion)
    (h : aio.sendPartialRun dataLen 0 pre = true) :
    (0 < c.errno →
      aio.sendRun dataLen (pre ++ c :: rest) =
        .prepareSend 0 :: ((aio.sendOffsets 0 pre).map .prepareSend
          ++ [.shutdownCall (.errno c.errno)]) ∧
      .sent ∉ aio.sendRun dataLen (pre ++ c :: rest)) ∧
    (c.errno = 0 → (dataLen : Int) ≤ aio.sumRes pre + c.res →
      aio.sendRun dataLen (pre ++ c :: rest) =
        .prepareSend 0 :: ((aio.sendOffsets 0 pre).map .prepareSend ++ [.sent]) ∧
      ∀ e, aio.Event.shutdownCall e ∉ aio.sendRun dataLen (pre ++ c :: rest)) ∧
    (aio.sendRun dataLen (pre ++ c :: rest)).countP aio.isTerminalEvent ≤ 1 ∧
    ((0 < c.errno ∨ (c.errno = 0 ∧ (dataLen : Int) ≤ aio.sumRes pre + c.res)) →
      (aio.sendRun dataLen (pre ++ c :: rest)).countP aio.isTerminalEvent = 1) := by
  have hsplit := sendCallback_split dataLen pre 0 h (c :: rest)
  have hnoterm : ∀ (offs : List Int),
      ∀ e ∈ offs.map aio.Event.prepareSend, aio.isTerminalEvent e = false := by
    intro offs e he
    obtain ⟨o, _, rfl⟩ := List.mem_map.mp he
    rfl
  have herr : 0 < c.errno →
      aio.sendRun dataLen (pre ++ c :: rest) =
        .prepareSend 0 :: ((aio.sendOffsets 0 pre).map .prepareSend
          ++ [.shutdownCall (.errno c.errno)]) := by
    intro hc
    rw [aio.sendRun, hsplit]
    congr 1
    rw [aio.sendCallback, if_pos hc]
  have hok : c.errno = 0 → (dataLen : Int) ≤ aio.sumRes pre + c.res →
      aio.sendRun dataLen (pre ++ c :: rest) =
        .prepareSend 0 :: ((aio.sendOffsets 0 pre).map .prepareSend ++ [.sent]) := by
    intro hc hge
    rw [aio.sendRun, hsplit]
    congr 1
    rw [aio.sendCallback, if_neg (by omega), if_pos (by omega)]
  have hz : ((aio.sendOffsets 0 pre).map aio.Event.prepareSend).countP
      aio.isTerminalEvent = 0 := by
    rw [List.countP_eq_zero]
    intro e he
    simp [hnoterm (aio.sendOffsets 0 pre) e he]
  refine ⟨fun hc => ⟨herr hc, ?_⟩, fun hc hge => ⟨hok hc hge, ?_⟩, ?_, ?_⟩
  · rw [herr hc]
    simp
  · intro e
    rw [hok hc hge]
    simp
  · rw [aio.sendRun, List.countP_cons_of_neg]
    · exact sendCallback_terminal_le_one dataLen (pre ++ c :: rest) 0
    · simp [aio.isTerminalEvent]
  · intro hcase
    have hrun : aio.sendRun dataLen (pre ++ c :: rest) =
        .prepareSend 0 :: ((aio.sendOffsets 0 pre).map .prepareSend
          ++ [if 0 < c.errno then .shutdownCall (.errno c.errno) else .sent]) := by
      rcases hcase with hc | ⟨hc, hge⟩
      · rw [herr hc, if_pos hc]
      · rw [hok hc hge, if_neg (by omega)]
    rw [hrun]
    by_cases hc : 0 < c.errno <;>
      simp [hc, List.countP_cons, List.countP_append, hz, aio.isTerminalEvent]

/-- Witness for `tcp_send_discipline`: a 10-byte send completing in
partials of 3, 4 and 3 bytes re-issues at offsets 3 and 7 and fires
`Sent` exactly once at the third completion. -/
theorem tcp_send_discipline_witness :
    aio.sendRun 10 ([⟨3, 0⟩, ⟨4, 0⟩] ++ ⟨3, 0⟩ :: []) =
      .prepareSend 0 :: ((aio.sendOffsets 0 [⟨3, 0⟩, ⟨4, 0⟩]).map .prepareSend
        ++ [.sent]) ∧
    (aio.sendRun 10 ([⟨3, 0⟩, ⟨4, 0⟩] ++ ⟨3, 0⟩ :: [])).countP
      aio.isTerminalEvent = 1 :=
  ⟨((tcp_send_discipline 10 [⟨3, 0⟩, ⟨4, 0⟩] ⟨3, 0⟩ [] (by decide)).2.1 rfl
      (by decide)).1,
    (tcp_send_discipline 10 [⟨3, 0⟩, ⟨4, 0⟩] ⟨3, 0⟩ [] (by decide)).2.2.2
      (Or.inr ⟨rfl, by decide⟩)⟩

/-- Inversion: a valid sequence starting with `Single` is a valid
sequence after it. -/
theorem fragSeq_single_iff (rest : List ws.Fragment) :
    ws.FragSeq (.fragSingle :: rest) ↔ ws.FragSeq rest := by
  constructor
  · intro h
    cases h with
    | single h => exact h
  · exact ws.FragSeq.single

/-- Inversion: a valid sequence starting with `First` opens a group that
must be closed by a `Last` after middles. -/
theorem fragSeq_first_iff (rest : List ws.Fragment) :
    ws.FragSeq (.fragFirst :: rest) ↔
      ∃ ms rest2, rest = ms ++ .fragLast :: rest2 ∧ ws.AllMiddles ms ∧ ws.FragSeq rest2 := by
  constructor
  · intro h
    cases h with
    | group hm hf => exact ⟨_, _, rfl, hm, hf⟩
  · rintro ⟨ms, rest2, rfl, hm, hf⟩
    exact ws.FragSeq.group hm hf

/-- No valid sequence starts with `Middle`. -/
theorem fragSeq_not_middle (l : List ws.Fragment) : ¬ws.FragSeq (.fragMiddle :: l) := by
  intro h
  cases h

/-- No valid sequence starts with `Last`. -/
theorem fragSeq_not_last (l : List ws.Fragment) : ¬ws.FragSeq (.fragLast :: l) := by
  intro h
  cases h

/-- Shifting a group decomposition across a leading `Middle`. -/
theorem groupDecomp_middle (rest : List ws.Fragment) :
    (∃ ms rest2, (.fragMiddle :: rest : List ws.Fragment) = ms ++ .fragLast :: rest2 ∧
        ws.AllMiddles ms ∧ ws.FragSeq rest2) ↔
      ∃ ms rest2, rest = ms ++ .fragLast :: rest2 ∧ ws.AllMiddles ms ∧ ws.FragSeq rest2 := by
  constructor
  · rintro ⟨ms, rest2, heq, hm, hf⟩
    cases ms with
    | nil => exact absurd (List.head_eq_of_cons_eq heq) (by decide)
    | cons m ms2 =>
      obtain ⟨hm1, hm2⟩ := List.cons_eq_cons.mp heq
      subst hm1
      cases hm with
      | cons hm3 => exact ⟨ms2, rest2, hm2, hm3, hf⟩
  · rintro ⟨ms, rest2, rfl, hm, hf⟩
    exact ⟨.fragMiddle :: ms, rest2, rfl, ws.AllMiddles.cons hm, hf⟩

/-- A group decomposition of a list starting with `Last` closes the group
immediately. -/
theorem groupDecomp_last (rest : List ws.Fragment) :
    (∃ ms rest2, (.fragLast :: rest : List ws.Fragment) = ms ++ .fragLast :: rest2 ∧
        ws.AllMiddles ms ∧ ws.FragSeq rest2) ↔ ws.FragSeq rest := by
  constructor
  · rintro ⟨ms, rest2, heq, hm, hf⟩
    cases ms with
    | nil =>
      obtain ⟨_, h2⟩ := List.cons_eq_cons.mp heq
      subst h2
      exact hf
    | cons m ms2 =>
      obtain ⟨hm1, _⟩ := List.cons_eq_cons.mp heq
      subst hm1
      cases hm
  · intro hf
    exact ⟨[], rest, rfl, ws.AllMiddles.nil, hf⟩

/-- A list starting with `Single` or `First` has no group decomposition. -/
theorem groupDecomp_none (fr : ws.Fragment) (l : List ws.Fragment)
    (h : fr = .fragSingle ∨ fr = .fragFirst) :
    ¬∃ ms rest2, (fr :: l : List ws.Fragment) = ms ++ .fragLast :: rest2 ∧
      ws.AllMiddles ms ∧ ws.FragSeq rest2 := by
  rintro ⟨ms, rest2, heq, hm, _⟩
  cases ms with
  | nil =>
    have := List.head_eq_of_cons_eq heq
    rcases h with rfl | rfl <;> simp at this
  | cons m ms2 =>
    obtain ⟨hm1, _⟩ := List.cons_eq_cons.mp heq
    subst hm1
    cases hm with
    | cons => rcases h with h1 | h1 <;> simp at h1

/-- Continuation test from a boundary state. -/
theorem validCont_boundary (prev fr : ws.Fragment) (h : ws.atBoundary prev) :
    fr.isValidContinuation prev = (fr == .fragSingle || fr == .fragFirst) := by
  rcases h with rfl | rfl <;> rfl

/-- Continuation test from an open-group state. -/
theorem validCont_inGroup (prev fr : ws.Fragment)
    (h : prev = .fragFirst ∨ prev = .fragMiddle) :
    fr.isValidContinuation prev = (fr == .fragMiddle || fr == .fragLast) := by
  rcases h with rfl | rfl <;> rfl

/-- The fragment automaton, run to a boundary state, recognizes exactly
the spec's language: from a boundary state the remaining fragments form
`(Single)*` interleaved with complete `(First, Middle*, Last)` groups;
from an open-group state they must close the current group first. -/
theorem runFragments_language (l : List ws.Fragment) :
    (∀ prev, ws.atBoundary prev →
      ((∃ p, ws.runFragments prev l = some p ∧ ws.atBoundary p) ↔ ws.FragSeq l)) ∧
    (∀ prev, prev = .fragFirst ∨ prev = .fragMiddle →
      ((∃ p, ws.runFragments prev l = some p ∧ ws.atBoundary p) ↔
        ∃ ms rest2, l = ms ++ .fragLast :: rest2 ∧ ws.AllMiddles ms ∧
          ws.FragSeq rest2)) := by
  induction l with
  | nil =>
    constructor
    · intro prev hB
      simp only [ws.runFragments]
      constructor
      · intro _
        exact ws.FragSeq.nil
      · intro _
        exact ⟨prev, rfl, hB⟩
    · intro prev hG
      simp only [ws.runFragments]
      constructor
      · rintro ⟨p, hp, hBp⟩
        obtain rfl := Option.some_injective _ hp
        rcases hG with rfl | rfl <;> rcases hBp with h | h <;> simp at h
      · rintro ⟨ms, rest2, heq, _, _⟩
        exact absurd heq (by simp)
  | cons fr rest ih =>
    constructor
    · intro prev hB
      simp only [ws.runFragments, validCont_boundary prev fr hB]
      cases fr with
      | fragSingle =>
        rw [if_pos (by decide)]
        rw [(ih.1 .fragSingle (Or.inl rfl) : _)]
        exact (fragSeq_single_iff rest).symm
      | fragFirst =>
        rw [if_pos (by decide)]
        rw [(ih.2 .fragFirst (Or.inl rfl) : _)]
        exact (fragSeq_first_iff rest).symm
      | fragMiddle =>
        rw [if_neg (by decide)]
        constructor
        · rintro ⟨p, hp, _⟩
          simp at hp
        · intro h
          exact absurd h (fragSeq_not_middle rest)
      | fragLast =>
        rw [if_neg (by decide)]
        constructor
        · rintro ⟨p, hp, _⟩
          simp at hp
        · intro h
          exact absurd h (fragSeq_not_last rest)
    · intro prev hG
      simp only [ws.runFragments, validCont_inGroup prev fr hG]
      cases fr with
      | fragMiddle =>
        rw [if_pos (by decide)]
        rw [(ih.2 .fragMiddle (Or.inr rfl) : _)]
        exact (groupDecomp_middle rest).symm
      | fragLast =>
        rw [if_pos (by decide)]
        rw [(ih.1 .fragLast (Or.inr rfl) : _)]
        exact (groupDecomp_last rest).symm
      | fragSingle =>
        rw [if_neg (by decide)]
        constructor
        · rintro ⟨p, hp, _⟩
          simp at hp
        · intro h
          exact absurd h (groupDecomp_none .fragSingle rest (Or.inl rfl))
      | fragFirst =>
        rw [if_neg (by decide)]
        constructor
        · rintro ⟨p, hp, _⟩
          simp at hp
        · intro h
          exact absurd h (groupDecomp_none .fragFirst rest (Or.inr rfl))

/-- The frame validator reduces to the fragment automaton on the
fragment kinds of the non-control frames, and its only error is
`ErrInvalidFragmentation`. -/
theorem processFrames_eq (frames : List ws.Frame) : ∀ prev,
    ws.processFrames prev frames =
      (ws.runFragments prev (ws.nonControlFragments frames)).elim
        (.error .invalidFragmentation) .ok := by
  induction frames with
  | nil =>
    intro prev
    simp [ws.processFrames, ws.nonControlFragments, ws.runFragments]
  | cons f rest ih =>
    intro prev
    by_cases hc : f.isControl
    · have hv : f.verifyContinuation prev = none := by
        simp [ws.Frame.verifyContinuation, hc]
      have hncf : ws.nonControlFragments (f :: rest) = ws.nonControlFragments rest := by
        simp [ws.nonControlFragments, List.filter_cons, hc]
      simp only [ws.processFrames, hv, hc, if_true, hncf]
      exact ih prev
    · have hncf : ws.nonControlFragments (f :: rest) =
          f.fragment :: ws.nonControlFragments rest := by
        simp [ws.nonControlFragments, List.filter_cons, hc]
      by_cases hvalid : f.fragment.isValidContinuation prev = true
      · have hv : f.verifyContinuation prev = none := by
          simp [ws.Frame.verifyContinuation, hc, hvalid]
        simp only [ws.processFrames, hv, hc, if_false, hncf, ws.runFragments,
          hvalid, if_true]
        exact ih f.fragment
      · have hv : f.verifyContinuation prev = some .invalidFragmentation := by
          simp only [ws.Frame.verifyContinuation, hc, Bool.false_eq_true, if_false]
          rw [if_pos]
          simp only [Bool.not_eq_true] at hvalid
          simp [hvalid]
        simp only [ws.processFrames, hv, hncf, ws.runFragments]
        rw [if_neg (by simp [hvalid])]
        simp [Option.elim]

/-- C3: starting from the reset fragment state (`fragSingle`), the
frame-sequence validator accepts exactly the non-control sequences of the
form `(Single)*` interleaved with `(First, Middle*, Last)` groups —
reaching a message boundary with no error iff the fragment kinds of the
non-control frames are in the language; after a previous fragment in
{Single, Last} only Single or First is accepted, after one in
{First, Middle} only Middle or Last; any rejected successor yields
`ErrInvalidFragmentation` (the validator's only error); and control
frames pass verification without advancing or perturbing the state. -/
theorem fragmentation_state_machine (frames : List ws.Frame) :
    (∀ curr prev : ws.Fragment,
      curr.isValidContinuation prev = true ↔
        (((prev = .fragSingle ∨ prev = .fragLast) ∧
            (curr = .fragSingle ∨ curr = .fragFirst)) ∨
         ((prev = .fragFirst ∨ prev = .fragMiddle) ∧
            (curr = .fragMiddle ∨ curr = .fragLast)))) ∧
    (∀ (f : ws.Frame) (prev : ws.Fragment) (e : ws.Err),
      f.verifyContinuation prev = some e → e = .invalidFragmentation) ∧
    (∀ (f : ws.Frame) (prev : ws.Fragment) (rest : List ws.Frame),
      f.isControl = true →
        f.verifyContinuation prev = none ∧
        ws.processFrames prev (f :: rest) = ws.processFrames prev rest) ∧
    ((∃ p, ws.processFrames .fragSingle frames = .ok p ∧ ws.atBoundary p) ↔
      ws.FragSeq (ws.nonControlFragments frames)) := by
  refine ⟨?_, ?_, ?_, ?_⟩
  · intro curr prev
    cases curr <;> cases prev <;> decide
  · intro f prev e h
    simp only [ws.Frame.verifyContinuation] at h
    split_ifs at h
    simp_all
  · intro f prev rest hc
    refine ⟨by simp [ws.Frame.verifyContinuation, hc], ?_⟩
    have hv : f.verifyContinuation prev = none := by
      simp [ws.Frame.verifyContinuation, hc]
    simp [ws.processFrames, hv, hc]
  · rw [processFrames_eq frames .fragSingle]
    have hmain := (runFragments_language (ws.nonControlFragments frames)).1
      .fragSingle (Or.inl rfl)
    rw [← hmain]
    constructor
    · rintro ⟨p, hp, hB⟩
      cases hrun : ws.runFragments .fragSingle (ws.nonControlFragments frames) with
      | none =>
        rw [hrun] at hp
        simp [Option.elim] at hp
      | some q =>
        rw [hrun] at hp
        simp only [Option.elim] at hp
        obtain rfl := Except.ok.inj hp
        exact ⟨q, rfl, hB⟩
    · rintro ⟨p, hp, hB⟩
      refine ⟨p, ?_, hB⟩
      rw [hp]
      rfl

/-- Witness for `fragmentation_state_machine`: a Ping passes the
continuation check from any state, and from the reset state the fragment
sequence [First, Middle, Last, Single] of a two-fragment message followed
by a single-frame message is accepted. -/
theorem fragmentation_state_machine_witness :
    ({ payload := [], opcode := ws.Ping, flags := 0x80, fin := true,
        deflated := false } : ws.Frame).verifyContinuation .fragMiddle = none ∧
    ws.FragSeq (ws.nonControlFragments
      [{ payload := [0x48], opcode := ws.Text, flags := 0, fin := false,
          deflated := false },
       { payload := [0x49], opcode := ws.Continuation, flags := 0, fin := false,
          deflated := false },
       { payload := [0x4a], opcode := ws.Continuation, flags := 0x80, fin := true,
          deflated := false },
       { payload := [0x4b], opcode := ws.Binary, flags := 0x80, fin := true,
          deflated := false }]) :=
  ⟨((fragmentation_state_machine []).2.2.1
      { payload := [], opcode := ws.Ping, flags := 0x80, fin := true,
        deflated := false } .fragMiddle [] (by decide)).1,
    ((fragmentation_state_machine
      [{ payload := [0x48], opcode := ws.Text, flags := 0, fin := false,
          deflated := false },
       { payload := [0x49], opcode := ws.Continuation, flags := 0, fin := false,
          deflated := false },
       { payload := [0x4a], opcode := ws.Continuation, flags := 0x80, fin := true,
          deflated := false },
       { payload := [0x4b], opcode := ws.Binary, flags := 0x80, fin := true,
          deflated := false }]).2.2.2).mp
      ⟨.fragSingle, rfl, Or.inl rfl⟩⟩

/-- Reading one byte within bounds advances the cursor. -/
theorem readByte_ok (l : List Nat) (h t : Nat) (hlt : h < l.length) :
    ws.BufferReader.readByte ⟨l, h, t⟩ = .ok (l.getD h 0, ⟨l, h + 1, t⟩) := by
  simp [ws.BufferReader.readByte, hlt]

/-- Reading a slice within bounds advances the cursor. -/
theorem readN_ok (l : List Nat) (h t n : Nat) (hle : h + n ≤ l.length) :
    ws.BufferReader.readN ⟨l, h, t⟩ n = .ok ((l.drop h).take n, ⟨l, h + n, t⟩) := by
  simp [ws.BufferReader.readN, hle]

/-- A frame that verifies has clear RSV2/RSV3 bits. -/
theorem rsv_false_of_verify_none (f : ws.Frame) (h : f.verify = none) :
    f.rsv2 = false ∧ f.rsv3 = false := by
  rw [ws.Frame.verify] at h
  by_cases hc : (f.rsv2 || f.rsv3) = true
  · rw [if_pos hc] at h
    exact absurd h (by simp)
  · simp only [Bool.or_eq_true, not_or, Bool.not_eq_true] at hc
    exact hc

/-- A frame that verifies has a verifying opcode. -/
theorem opcode_verify_of_verify_none (f : ws.Frame) (h : f.verify = none) :
    f.opcode.verify = none := by
  rw [ws.Frame.verify] at h
  by_cases hc : (f.rsv2 || f.rsv3) = true
  · rw [if_pos hc] at h
    exact absurd h (by simp)
  · rw [if_neg (by simp_all)] at h
    cases hov : f.opcode.verify with
    | some e =>
      rw [hov] at h
      simp at h
    | none => rfl

/-- A verifying opcode is below 16 (it fits the low header nibble). -/
theorem opcode_lt_16 (o : Nat) (h : ws.OpCode.verify o = none) : o < 16 := by
  rw [ws.OpCode.verify] at h
  split_ifs at h with hc
  simp only [Bool.or_eq_true, Bool.and_eq_true, decide_eq_true_eq,
    ws.Binary, ws.Close, ws.Pong] at hc
  rcases hc with h1 | ⟨h1, h2⟩
  · exact Nat.lt_of_le_of_lt h1 (by decide)
  · exact Nat.lt_of_le_of_lt h2 (by decide)

/-- Frame verification reads the flags only through RSV2/RSV3: two frames
differing only in flags, both with those bits clear, verify alike. -/
theorem verify_flags_transfer (payload : List Nat) (opcode fl1 fl2 : Nat)
    (fin deflated : Bool)
    (hA2 : ({ payload := payload, opcode := opcode, flags := fl1, fin := fin,
              deflated := deflated } : ws.Frame).rsv2 = false)
    (hA3 : ({ payload := payload, opcode := opcode, flags := fl1, fin := fin,
              deflated := deflated } : ws.Frame).rsv3 = false)
    (hB2 : ({ payload := payload, opcode := opcode, flags := fl2, fin := fin,
              deflated := deflated } : ws.Frame).rsv2 = false)
    (hB3 : ({ payload := payload, opcode := opcode, flags := fl2, fin := fin,
              deflated := deflated } : ws.Frame).rsv3 = false) :
    ({ payload := payload, opcode := opcode, flags := fl1, fin := fin,
       deflated := deflated } : ws.Frame).verify =
    ({ payload := payload, opcode := opcode, flags := fl2, fin := fin,
       deflated := deflated } : ws.Frame).verify := by
  simp only [ws.Frame.verify, hA2, hA3, hB2, hB3, Bool.or_self,
    Bool.false_eq_true, if_false, ws.Frame.isControl, ws.Frame.verifyControl,
    ws.Frame.verifyClose, ws.Frame.verifyCloseCode, ws.Frame.closeCode,
    ws.Frame.closePayload]

set_option maxHeartbeats 3200000 in
/-- C2: for every legal frame F (one passing `Frame.verify`: RSV bits
clear, opcode in {0,1,2,8,9,10}, control frames with FIN and a payload of
at most 125 bytes, Close frames with a valid close code and UTF-8
reason), `newFrame` applied to `F.header() ++ F.payload` returns F back —
same opcode, fin, deflated and payload (the parsed flags byte carries
exactly the FIN and RSV1 bits) — and the second header byte never sets
the mask bit. -/
theorem frame_roundtrip (payload : List Nat) (opcode flags : Nat)
    (fin deflated : Bool)
    (hv : ({ payload := payload, opcode := opcode, flags := flags, fin := fin,
             deflated := deflated } : ws.Frame).verify = none)
    (hlen : payload.length < 2 ^ 63) :
    (∃ r, ws.newFrame
      { buf := ({ payload := payload, opcode := opcode, flags := flags,
                  fin := fin, deflated := deflated } : ws.Frame).header ++ payload,
        head := 0, tail := 0 } =
      .frame { payload := payload, opcode := opcode,
               flags := (if fin then 128 else 0) + (if deflated then 64 else 0),
               fin := fin, deflated := deflated } r) ∧
    (∃ b2, (({ payload := payload, opcode := opcode, flags := flags,
               fin := fin, deflated := deflated } : ws.Frame).header).get? 1 =
        some b2 ∧ b2 < 128) := by
  obtain ⟨fv, hfvd, hfv⟩ : ∃ fv : Nat,
      (if fin then (128 : Nat) else 0) = fv ∧
        ((fin = true ∧ fv = 128) ∨ (fin = false ∧ fv = 0)) := by
    by_cases h : fin <;> simp [h]
  obtain ⟨dv, hdvd, hdv⟩ : ∃ dv : Nat,
      (if deflated then (64 : Nat) else 0) = dv ∧
        ((deflated = true ∧ dv = 64) ∨ (deflated = false ∧ dv = 0)) := by
    by_cases h : deflated <;> simp [h]
  have hop : opcode < 16 :=
    opcode_lt_16 opcode (opcode_verify_of_verify_none _ hv)
  have hr2 : ({ payload := payload, opcode := opcode, flags := fv + dv,
                fin := fin, deflated := deflated } : ws.Frame).rsv2 = false := by
    simp only [ws.Frame.rsv2]
    rcases hfv with ⟨_, h1⟩ | ⟨_, h1⟩ <;> rcases hdv with ⟨_, h2⟩ | ⟨_, h2⟩ <;>
      subst h1 <;> subst h2 <;> rfl
  have hr3 : ({ payload := payload, opcode := opcode, flags := fv + dv,
                fin := fin, deflated := deflated } : ws.Frame).rsv3 = false := by
    simp only [ws.Frame.rsv3]
    rcases hfv with ⟨_, h1⟩ | ⟨_, h1⟩ <;> rcases hdv with ⟨_, h2⟩ | ⟨_, h2⟩ <;>
      subst h1 <;> subst h2 <;> rfl
  obtain ⟨hf2, hf3⟩ := rsv_false_of_verify_none _ hv
  have hverify : ({ payload := payload, opcode := opcode, flags := fv + dv,
                    fin := fin, deflated := deflated } : ws.Frame).verify = none :=
    (verify_flags_transfer payload opcode flags (fv + dv) fin deflated
      hf2 hf3 hr2 hr3).symm.trans hv
  have hopcode : (opcode + fv + dv) % 16 = opcode := by
    rcases hfv with ⟨_, h1⟩ | ⟨_, h1⟩ <;> rcases hdv with ⟨_, h2⟩ | ⟨_, h2⟩ <;> omega
  have hflags : (opcode + fv + dv) / 16 * 16 = fv + dv := by
    rcases hfv with ⟨_, h1⟩ | ⟨_, h1⟩ <;> rcases hdv with ⟨_, h2⟩ | ⟨_, h2⟩ <;> omega
  have hfin : ((fv + dv) / 128 % 2 == 1) = fin := by
    rcases hfv with ⟨hb, h1⟩ | ⟨hb, h1⟩ <;> rcases hdv with ⟨_, h2⟩ | ⟨_, h2⟩ <;>
      subst h1 <;> subst h2 <;> rw [hb] <;> rfl
  have hdefl : ((fv + dv) / 64 % 2 == 1) = deflated := by
    rcases hfv with ⟨_, h1⟩ | ⟨_, h1⟩ <;> rcases hdv with ⟨hb, h2⟩ | ⟨hb, h2⟩ <;>
      subst h1 <;> subst h2 <;> rw [hb] <;> rfl
  by_cases h126 : payload.length < 126
  · have hhdr : ({ payload := payload, opcode := opcode, flags := flags,
                   fin := fin, deflated := deflated } : ws.Frame).header =
        [opcode + (if fin then 128 else 0) + (if deflated then 64 else 0),
         payload.length] := by
      simp [ws.Frame.header, ws.Frame.payloadLenBytes, h126]
    constructor
    · rw [hhdr, hfvd, hdvd]
      have hlenmod : payload.length % 128 = payload.length := by omega
      have hmaskedP : ¬(payload.length / 128 % 2 = 1) := by omega
      have h126P : ¬(payload.length = 126) := by omega
      have h127P : ¬(payload.length = 127) := by omega
      simp only [ws.newFrame, List.cons_append]
      rw [readByte_ok _ _ _ (by simp)]
      simp only []
      rw [readByte_ok _ _ _ (by simp)]
      simp only [List.getD_cons_zero, List.getD_cons_succ, beq_iff_eq]
      simp only [hlenmod, h126P, h127P, hmaskedP, if_false, ite_false]
      by_cases hpos : payload.length > 0
      · simp only [hpos, if_true, ite_true]
        rw [readN_ok _ _ _ _ (by simp; omega)]
        simp only [List.drop_succ_cons, List.drop_zero, List.take_length]
        simp only [hopcode, hflags, hfin, hdefl]
        simp [ws.BufferReader.frameDone, hverify]
      · have hnil : payload = [] := List.eq_nil_of_length_eq_zero (by omega)
        subst hnil
        simp only [hpos, if_false, ite_false]
        simp only [hopcode, hflags, hfin, hdefl]
        simp [ws.BufferReader.frameDone, hverify]
    · rw [hhdr]
      exact ⟨payload.length, by simp, by omega⟩
  · by_cases h64k : payload.length < 65536
    · have hhdr : ({ payload := payload, opcode := opcode, flags := flags,
                     fin := fin, deflated := deflated } : ws.Frame).header =
          [opcode + (if fin then 128 else 0) + (if deflated then 64 else 0), 126,
           payload.length / 256 % 256, payload.length % 256] := by
        simp [ws.Frame.header, ws.Frame.payloadLenBytes, h126, h64k]
      constructor
      · rw [hhdr, hfvd, hdvd]
        have hdec : 256 * (payload.length / 256 % 256) + payload.length % 256 =
            payload.length := by omega
        have hpos : payload.length > 0 := by omega
        simp only [ws.newFrame, List.cons_append]
        rw [readByte_ok _ _ _ (by simp)]
        simp only []
        rw [readByte_ok _ _ _ (by simp)]
        simp only [List.getD_cons_zero, List.getD_cons_succ, beq_iff_eq]
        norm_num
        rw [readN_ok _ _ _ _ (by simp)]
        simp only [List.drop_succ_cons, List.drop_zero, List.take_succ_cons,
          List.take_zero, List.getD_cons_zero, List.getD_cons_succ,
          List.getElem?_cons_zero, List.getElem?_cons_succ, Option.getD_some, hdec]
        rw [if_pos hpos]
        rw [readN_ok _ _ _ _ (by simp; omega)]
        simp only [List.drop_succ_cons, List.drop_zero, List.take_length]
        simp only [hopcode, hflags, hfin, hdefl]
        simp [ws.BufferReader.frameDone, hverify]
      · rw [hhdr]
        exact ⟨126, by simp, by omega⟩
    · have hhdr : ({ payload := payload, opcode := opcode, flags := flags,
                     fin := fin, deflated := deflated } : ws.Frame).header =
          [opcode + (if fin then 128 else 0) + (if deflated then 64 else 0), 127,
           payload.length / 2 ^ 56 % 256, payload.length / 2 ^ 48 % 256,
           payload.length / 2 ^ 40 % 256, payload.length / 2 ^ 32 % 256,
           payload.length / 2 ^ 24 % 256, payload.length / 2 ^ 16 % 256,
           payload.length / 2 ^ 8 % 256, payload.length % 256] := by
        simp [ws.Frame.header, ws.Frame.payloadLenBytes, h126, h64k]
      constructor
      · rw [hhdr, hfvd, hdvd]
        have hdec8 : List.foldl (fun acc d => acc * 256 + d) 0
            [payload.length / 72057594037927936 % 256,
             payload.length / 281474976710656 % 256,
             payload.length / 1099511627776 % 256,
             payload.length / 4294967296 % 256,
             payload.length / 16777216 % 256, payload.length / 65536 % 256,
             payload.length / 256 % 256, payload.length % 256] =
            payload.length := by
          simp only [List.foldl]
          omega
        have hpos : payload.length > 0 := by omega
        simp only [ws.newFrame, List.cons_append]
        rw [readByte_ok _ _ _ (by simp)]
        simp only []
        rw [readByte_ok _ _ _ (by simp)]
        simp only [List.getD_cons_zero, List.getD_cons_succ, beq_iff_eq]
        norm_num
        rw [readN_ok _ _ _ _ (by simp)]
        simp only [List.drop_succ_cons, List.drop_zero, List.take_succ_cons,
          List.take_zero, hdec8]
        rw [if_pos hpos]
        rw [readN_ok _ _ _ _ (by simp; omega)]
        simp only [List.drop_succ_cons, List.drop_zero, List.take_length]
        simp only [hopcode, hflags, hfin, hdefl]
        simp [ws.BufferReader.frameDone, hverify]
      · rw [hhdr]
        exact ⟨127, by simp, by omega⟩

/-- Witness for `frame_roundtrip`: the FIN Text frame carrying "Hello". -/
theorem frame_roundtrip_witness :
    (∃ r, ws.newFrame
      { buf := ({ payload := [72, 101, 108, 108, 111], opcode := 1, flags := 128,
                  fin := true, deflated := false } : ws.Frame).header
          ++ [72, 101, 108, 108, 111],
        head := 0, tail := 0 } =
      .frame { payload := [72, 101, 108, 108, 111], opcode := 1,
               flags := (if true then 128 else 0) + (if false then 64 else 0),
               fin := true, deflated := false } r) ∧
    (∃ b2, (({ payload := [72, 101, 108, 108, 111], opcode := 1, flags := 128,
               fin := true, deflated := false } : ws.Frame).header).get? 1 =
        some b2 ∧ b2 < 128) :=
  frame_roundtrip [72, 101, 108, 108, 111] 1 128 true false (by decide) (by decide)
